import Mathlib

/-!
Verification of the three PHYS20161 coursework analysis scripts
(bouncy-ball simulator, BN-thickness chi-squared fit, nuclear-decay fit).

Each script is shallowly embedded: Python floats become real numbers,
NumPy arrays of rows become lists of real triples, and float operations
that can produce NaN are modelled with `Option ℝ` (`none` = NaN), since
the thickness script's minimizer branches on `np.isnan`.  While-loops are
modelled either with explicit fuel (the bounce simulation, whose guard
provably fails after finitely many steps on the inputs considered) or as
a big-step terminating-run relation (the thickness hill-descent, which
has no iteration cap in the source).
-/

namespace Bounce

/-- Standard gravitational acceleration, as in the script (`g = 9.80665`). -/
noncomputable def g : ℝ := 9.80665

/-- `bounce_time(height, efficiency)`: time from one peak of height `h` to
the next peak of height `h*efficiency`, i.e. fall time plus rise time. -/
noncomputable def bounce_time (height efficiency : ℝ) : ℝ :=
  Real.sqrt (2 * height / g) + Real.sqrt (2 * height * efficiency / g)

/-- The mutable locals of the simulation loop: bounce counter, accumulated
time, current peak height, and the two recorded arrays. -/
structure SimState where
  bounces : ℕ
  total_time : ℝ
  height : ℝ
  array_heights : List ℝ
  array_times : List ℝ

/-- Initial values set just before the `while` loop:
`bounces = 0`, `total_time = 0`, `height = initial_height`,
`array_heights = [initial_height]`, `array_times = [0]`. -/
def initState (initial_height : ℝ) : SimState :=
  { bounces := 0
    total_time := 0
    height := initial_height
    array_heights := [initial_height]
    array_times := [0] }

/-- One iteration of the body of `while height * efficiency >= minimum_height`:
increment the bounce count, add `bounce_time(height, efficiency)` to the total
time, move to the next peak `height * efficiency`, and append the new height
and new total time to the recorded arrays. -/
noncomputable def stepState (efficiency : ℝ) (s : SimState) : SimState :=
  { bounces := s.bounces + 1
    total_time := s.total_time + bounce_time s.height efficiency
    height := s.height * efficiency
    array_heights := s.array_heights ++ [s.height * efficiency]
    array_times := s.array_times ++ [s.total_time + bounce_time s.height efficiency] }

open Classical in
/-- The simulation `while` loop, run for at most `fuel` iterations.  The
source loop has no cap; on every run considered here the guard fails within
the supplied fuel, so the fuel is invisible (see `bounce_reference_run`). -/
noncomputable def bounceLoop (efficiency minimum_height : ℝ) :
    ℕ → SimState → SimState
  | 0, s => s
  | n + 1, s =>
    if s.height * efficiency ≥ minimum_height then
      bounceLoop efficiency minimum_height n (stepState efficiency s)
    else s

/-- Once the guard fails, the loop returns the state unchanged for any fuel. -/
lemma bounceLoop_of_guard_false {efficiency minimum_height : ℝ} {s : SimState}
    (h : ¬ s.height * efficiency ≥ minimum_height) (n : ℕ) :
    bounceLoop efficiency minimum_height n s = s := by
  cases n with
  | zero => rfl
  | succ n => simp [bounceLoop, h]

/-- Running `a + b` steps is running `a` steps and then `b` more. -/
lemma bounceLoop_add (efficiency minimum_height : ℝ) (a b : ℕ) (s : SimState) :
    bounceLoop efficiency minimum_height (a + b) s =
      bounceLoop efficiency minimum_height b
        (bounceLoop efficiency minimum_height a s) := by
  induction a generalizing s with
  | zero => simp [bounceLoop]
  | succ a ih =>
    by_cases h : s.height * efficiency ≥ minimum_height
    · have : a + 1 + b = (a + b) + 1 := by omega
      rw [this]
      simp only [bounceLoop, h, if_pos]
      exact ih _
    · rw [bounceLoop_of_guard_false h (a + 1 + b), bounceLoop_of_guard_false h (a + 1),
        bounceLoop_of_guard_false h b]

/-- One iteration when the guard holds. -/
lemma bounceLoop_step_of_guard (n : ℕ) {efficiency minimum_height : ℝ} {s : SimState}
    (h : s.height * efficiency ≥ minimum_height) :
    bounceLoop efficiency minimum_height (n + 1) s =
      bounceLoop efficiency minimum_height n (stepState efficiency s) := by
  simp [bounceLoop, h]

/-- Four iterations of the loop on inputs `(10, 1, 0.5)` reach the terminal
state: 3 bounces, peaks `[10, 5, 2.5, 1.25]`, and the accumulated fall+rise
times for pre-bounce peaks `10`, `5`, `2.5`. -/
lemma bounceLoop_four_steps :
    bounceLoop 0.5 1 4 (initState 10) =
      { bounces := 3
        total_time :=
          (Real.sqrt (2 * 10 / g) + Real.sqrt (2 * 10 * 0.5 / g))
            + (Real.sqrt (2 * 5 / g) + Real.sqrt (2 * 5 * 0.5 / g))
            + (Real.sqrt (2 * 2.5 / g) + Real.sqrt (2 * 2.5 * 0.5 / g))
        height := 1.25
        array_heights := [10, 5, 2.5, 1.25]
        array_times :=
          [0,
           Real.sqrt (2 * 10 / g) + Real.sqrt (2 * 10 * 0.5 / g),
           (Real.sqrt (2 * 10 / g) + Real.sqrt (2 * 10 * 0.5 / g))
             + (Real.sqrt (2 * 5 / g) + Real.sqrt (2 * 5 * 0.5 / g)),
           (Real.sqrt (2 * 10 / g) + Real.sqrt (2 * 10 * 0.5 / g))
             + (Real.sqrt (2 * 5 / g) + Real.sqrt (2 * 5 * 0.5 / g))
             + (Real.sqrt (2 * 2.5 / g) + Real.sqrt (2 * 2.5 * 0.5 / g))] } := by
  calc bounceLoop 0.5 1 4 (initState 10)
      = bounceLoop 0.5 1 3 (stepState 0.5 (initState 10)) :=
        bounceLoop_step_of_guard 3 (by norm_num [initState])
    _ = bounceLoop 0.5 1 2 (stepState 0.5 (stepState 0.5 (initState 10))) :=
        bounceLoop_step_of_guard 2 (by norm_num [initState, stepState])
    _ = bounceLoop 0.5 1 1
          (stepState 0.5 (stepState 0.5 (stepState 0.5 (initState 10)))) :=
        bounceLoop_step_of_guard 1 (by norm_num [initState, stepState])
    _ = stepState 0.5 (stepState 0.5 (stepState 0.5 (initState 10))) :=
        bounceLoop_of_guard_false (by norm_num [initState, stepState]) 1
    _ = _ := by
        simp only [initState, stepState, bounce_time, SimState.mk.injEq]
        norm_num

/-- C1.  Bounce simulator reference run: on inputs `initial_height = 10`,
`minimum_height = 1`, `efficiency = 0.5`, the loop (given any fuel `n + 4`,
i.e. once at least the 4 guard checks it performs have been allowed) records
the peak-height sequence `10, 5, 2.5, 1.25`, counts exactly 3 bounces, and
accumulates a total time equal to the sum over the 3 executed bounces of
`sqrt(2h/g) + sqrt(2*h*0.5/g)` for pre-bounce peaks `h = 10, 5, 2.5`; the
loop has stopped because `1.25 * 0.5 = 0.625 < 1`. -/
theorem bounce_reference_run (n : ℕ) :
    bounceLoop 0.5 1 (n + 4) (initState 10) =
      { bounces := 3
        total_time :=
          (Real.sqrt (2 * 10 / g) + Real.sqrt (2 * 10 * 0.5 / g))
            + (Real.sqrt (2 * 5 / g) + Real.sqrt (2 * 5 * 0.5 / g))
            + (Real.sqrt (2 * 2.5 / g) + Real.sqrt (2 * 2.5 * 0.5 / g))
        height := 1.25
        array_heights := [10, 5, 2.5, 1.25]
        array_times :=
          [0,
           Real.sqrt (2 * 10 / g) + Real.sqrt (2 * 10 * 0.5 / g),
           (Real.sqrt (2 * 10 / g) + Real.sqrt (2 * 10 * 0.5 / g))
             + (Real.sqrt (2 * 5 / g) + Real.sqrt (2 * 5 * 0.5 / g)),
           (Real.sqrt (2 * 10 / g) + Real.sqrt (2 * 10 * 0.5 / g))
             + (Real.sqrt (2 * 5 / g) + Real.sqrt (2 * 5 * 0.5 / g))
             + (Real.sqrt (2 * 2.5 / g) + Real.sqrt (2 * 2.5 * 0.5 / g))] }
      ∧ (1.25 * 0.5 : ℝ) < 1 := by
  constructor
  · rw [Nat.add_comm n 4, bounceLoop_add, bounceLoop_four_steps]
    exact bounceLoop_of_guard_false (by norm_num) n
  · norm_num

/-- Concrete instance of C1 at fuel `4`. -/
theorem bounce_reference_run_check :
    (bounceLoop 0.5 1 4 (initState 10)).bounces = 3 ∧
      (bounceLoop 0.5 1 4 (initState 10)).array_heights = [10, 5, 2.5, 1.25] := by
  have h : bounceLoop 0.5 1 4 (initState 10) = _ := (bounce_reference_run 0).1
  rw [h]
  exact ⟨rfl, rfl⟩

/-- The outcome of the error-checking `if/elif` chain on one input attempt,
one constructor per user-facing branch, in the source's order. -/
inductive InputCheck where
  | heightsNonpositive
  | minAboveInitial
  | effOne
  | effZero
  | effOutOfRange
  | noBounce
  | valid
  deriving DecidableEq

/-- The specific user-facing message printed for each rejecting branch. -/
def message : InputCheck → String
  | .heightsNonpositive => "Make sure the heights are greater than 0."
  | .minAboveInitial => "Please set the minimum height to be less than the initial height."
  | .effOne => "The ball keeps on bouncing indefinitely."
  | .effZero => "The ball does not bounce."
  | .effOutOfRange => "The efficiency must be greater than 0 and less than 1."
  | .noBounce => "There are no bounces above minimum height."
  | .valid => ""

open Classical in
/-- The `if/elif` chain of the error checking, exactly in source order. -/
noncomputable def classify (initial_height minimum_height efficiency : ℝ) : InputCheck :=
  if initial_height ≤ 0 ∨ minimum_height ≤ 0 then .heightsNonpositive
  else if minimum_height ≥ initial_height then .minAboveInitial
  else if efficiency = 1 then .effOne
  else if efficiency = 0 then .effZero
  else if efficiency > 1 ∨ efficiency < 0 then .effOutOfRange
  else if initial_height * efficiency < minimum_height then .noBounce
  else .valid

/-- An input attempt: `none` models a non-numeric entry (the `float(...)`
calls raise `ValueError`), `some (h₀, h_min, e)` a parsed triple. -/
def rejectedInput : Option (ℝ × ℝ × ℝ) → Prop
  | none => True
  | some (h₀, hmin, e) => classify h₀ hmin e ≠ InputCheck.valid

open Classical in
/-- The outer `while True` retry loop over a (finite) stream of input
attempts: non-numeric attempts and rejected triples are skipped with a
message and the loop re-prompts; the first valid triple runs the simulation
(`bounceLoop` with the given fuel) and breaks.  An exhausted stream (`[]`)
means the user never supplied a valid triple: the loop is still running and
no simulation output exists (`none`). -/
noncomputable def promptLoop (fuel : ℕ) :
    List (Option (ℝ × ℝ × ℝ)) → Option SimState
  | [] => none
  | none :: rest => promptLoop fuel rest
  | some (h₀, hmin, e) :: rest =>
    if classify h₀ hmin e = InputCheck.valid then
      some (bounceLoop e hmin fuel (initState h₀))
    else promptLoop fuel rest

/-- If the chain accepts, none of the rejection conditions held. -/
lemma classify_valid_iff (h₀ hmin e : ℝ) :
    classify h₀ hmin e = InputCheck.valid ↔
      (0 < h₀ ∧ 0 < hmin ∧ hmin < h₀ ∧ e ≠ 1 ∧ e ≠ 0 ∧ 0 ≤ e ∧ e ≤ 1 ∧
        hmin ≤ h₀ * e) := by
  unfold classify
  constructor
  · intro h
    split_ifs at h with h1 h2 h3 h4 h5 h6
    all_goals simp at h
    push_neg at h1 h2 h5 h6
    exact ⟨h1.1, h1.2, h2, h3, h4, h5.2, h5.1, h6⟩
  · rintro ⟨hh₀, hhmin, hlt, he1, he0, he_lo, he_hi, hbounce⟩
    rw [if_neg (by push_neg; constructor <;> linarith),
      if_neg (by push_neg; linarith), if_neg he1, if_neg he0,
      if_neg (by push_neg; constructor <;> linarith),
      if_neg (by push_neg; linarith)]

/-- A rejected or non-numeric attempt is skipped: the loop retries. -/
lemma promptLoop_cons_rejected {a : Option (ℝ × ℝ × ℝ)} (ha : rejectedInput a)
    (fuel : ℕ) (rest : List (Option (ℝ × ℝ × ℝ))) :
    promptLoop fuel (a :: rest) = promptLoop fuel rest := by
  match a with
  | none => rfl
  | some (h₀, hmin, e) =>
    simp only [rejectedInput] at ha
    simp [promptLoop, ha]

/-- C8.  Bounce-script input rejection: any triple with efficiency exactly
`0` or `1`, efficiency outside `(0, 1)`, minimum height at least the initial
height, a nonpositive height, or `initial_height * efficiency <
minimum_height` fails the check chain, so the simulation loop never executes
on it and the retry loop moves on (with that branch's message); a
non-numeric attempt is likewise skipped; any finite run of such rejected
attempts leaves the retry loop still prompting, and the first valid triple
runs the simulation. -/
theorem input_rejection :
    (∀ h₀ hmin e : ℝ,
        (e = 0 ∨ e = 1 ∨ e < 0 ∨ 1 < e ∨ h₀ ≤ hmin ∨ h₀ ≤ 0 ∨ hmin ≤ 0 ∨
          h₀ * e < hmin) →
        classify h₀ hmin e ≠ InputCheck.valid ∧
          message (classify h₀ hmin e) ≠ "" ∧
          ∀ fuel rest,
            promptLoop fuel (some (h₀, hmin, e) :: rest) = promptLoop fuel rest) ∧
    (∀ fuel rest, promptLoop fuel (none :: rest) = promptLoop fuel rest) ∧
    (∀ fuel pre rest, (∀ a ∈ pre, rejectedInput a) →
        promptLoop fuel (pre ++ rest) = promptLoop fuel rest) ∧
    (∀ h₀ hmin e : ℝ, classify h₀ hmin e = InputCheck.valid →
        ∀ fuel rest,
          promptLoop fuel (some (h₀, hmin, e) :: rest) =
            some (bounceLoop e hmin fuel (initState h₀))) := by
  have hnv : ∀ h₀ hmin e : ℝ,
      (e = 0 ∨ e = 1 ∨ e < 0 ∨ 1 < e ∨ h₀ ≤ hmin ∨ h₀ ≤ 0 ∨ hmin ≤ 0 ∨
        h₀ * e < hmin) →
      classify h₀ hmin e ≠ InputCheck.valid := by
    intro h₀ hmin e hbad hv
    rw [classify_valid_iff] at hv
    obtain ⟨hh₀, hhmin, hlt, he1, he0, helo, hehi, hbounce⟩ := hv
    rcases hbad with h | h | h | h | h | h | h | h
    · exact he0 h
    · exact he1 h
    · linarith
    · linarith
    · linarith
    · linarith
    · linarith
    · linarith
  refine ⟨fun h₀ hmin e hbad => ⟨hnv h₀ hmin e hbad, ?_, ?_⟩, ?_, ?_, ?_⟩
  · have := hnv h₀ hmin e hbad
    unfold classify at this ⊢
    split_ifs <;> simp_all [message]
  · intro fuel rest
    exact promptLoop_cons_rejected (by simpa [rejectedInput] using hnv h₀ hmin e hbad)
      fuel rest
  · intro fuel rest
    rfl
  · intro fuel pre rest hpre
    induction pre with
    | nil => rfl
    | cons a pre ih =>
      rw [List.cons_append,
        promptLoop_cons_rejected (hpre a (List.mem_cons_self a pre)) fuel]
      exact ih fun b hb => hpre b (List.mem_cons_of_mem a hb)
  · intro h₀ hmin e hv fuel rest
    simp [promptLoop, hv]

/-- Concrete instances of C8: efficiency `1` is rejected and skipped, and a
stream of only rejected attempts leaves the loop with no simulation run. -/
theorem input_rejection_witness :
    classify 10 1 1 ≠ InputCheck.valid ∧
      promptLoop 4 [some (10, 1, 1)] = promptLoop 4 [] ∧
      promptLoop 4 [some (10, 1, 1), none, some (-1, 1, 0.5)] = none := by
  have h1 := (input_rejection.1 10 1 1 (by norm_num)).1
  have h2 := ((input_rejection.1 10 1 1 (by norm_num)).2.2 4 [])
  refine ⟨h1, h2, ?_⟩
  have h3 := input_rejection.2.2.1 4
    [some (10, 1, 1), none, some (-1, 1, 0.5)] [] ?_
  · simpa using h3
  · rintro a ha
    simp only [List.mem_cons, List.mem_singleton] at ha
    rcases ha with rfl | rfl | rfl | h
    · have := (input_rejection.1 10 1 1 (by norm_num)).1
      simpa [rejectedInput] using this
    · simp [rejectedInput]
    · have := (input_rejection.1 (-1) 1 0.5 (by norm_num)).1
      simpa [rejectedInput] using this
    · simp at h

end Bounce

namespace Thickness

/-- `V_0 = 3` (eV). -/
noncomputable def V_0 : ℝ := 3

/-- `epsilon_0 = 5.53e-3`. -/
noncomputable def epsilon_0 : ℝ := 5.53e-3

/-- `epsilon_r = 4`. -/
noncomputable def epsilon_r : ℝ := 4

/-- `sqrt_2m_over_hbar = 0.512317`. -/
noncomputable def sqrt_2m_over_hbar : ℝ := 0.512317

/-- `thickness_per_layer = 3` (Angstroms per layer). -/
noncomputable def thickness_per_layer : ℝ := 3

/-- `lambda_constant = log(2) / (8 * pi * epsilon_r * epsilon_0)`. -/
noncomputable def lambda_constant : ℝ :=
  Real.log 2 / (8 * Real.pi * epsilon_r * epsilon_0)

/-- `distance_1 = 1.2 * lambda_constant / V_0`. -/
noncomputable def distance_1 : ℝ := 1.2 * lambda_constant / V_0

/-- `starting_thickness = 3`. -/
noncomputable def starting_thickness : ℝ := 3

/-- `step = 0.0001`: step of the primary chi-squared descent. -/
noncomputable def step : ℝ := 0.0001

/-- `error_step = 0.1 * step`: step of the uncertainty descent. -/
noncomputable def error_step : ℝ := 0.1 * step

/-- `distance_2(thickness) = thickness - distance_1`. -/
noncomputable def distance_2 (thickness : ℝ) : ℝ := thickness - distance_1

open Classical in
/-- `average_potential(thickness) = V_0 - 1.15 * lambda_constant /
(distance_2 - distance_1) * log(distance_2^2 / distance_1^2)`.
`none` models the two float singularities: `distance_2 = distance_1` gives
`inf * log 1 = NaN`, and `distance_2 = 0` gives `log 0 = -inf`, which turns
into NaN under the square root in `transmission_coefficient`. -/
noncomputable def average_potential (thickness : ℝ) : Option ℝ :=
  if distance_2 thickness = distance_1 ∨ distance_2 thickness = 0 then none
  else some (V_0 - 1.15 * lambda_constant / (distance_2 thickness - distance_1) *
    Real.log ((distance_2 thickness) ^ 2 / distance_1 ^ 2))

open Classical in
/-- `transmission_coefficient(energy, thickness) =
exp(-2 * (distance_2 - distance_1) * sqrt_2m_over_hbar *
sqrt(average_potential - energy))`; `none` models the NaN produced by
`np.sqrt` of a negative argument (thickness too small). -/
noncomputable def transmission_coefficient (energy thickness : ℝ) : Option ℝ :=
  match average_potential thickness with
  | none => none
  | some v =>
    if v - energy < 0 then none
    else some (Real.exp (-2 * (distance_2 thickness - distance_1) *
      sqrt_2m_over_hbar * Real.sqrt (v - energy)))

/-- `chi_squared(data, thickness) = sum(((data[:,0] - model) / data[:,2])^2)`
over rows `(transmission, energy, uncertainty)`; `none` (NaN) as soon as one
row's model value is NaN, as for a NumPy sum. -/
noncomputable def chi_squared (data : List (ℝ × ℝ × ℝ)) (thickness : ℝ) :
    Option ℝ :=
  data.foldr
    (fun r acc =>
      match transmission_coefficient r.2.1 thickness, acc with
      | some t, some s => some (((r.1 - t) / r.2.2) ^ 2 + s)
      | _, _ => none)
    (some 0)

/-- The float comparison `f x < a` of the loop guards: a NaN (`none`) left
operand compares false, which is exactly how the source loop treats it. -/
def nanLt : Option ℝ → ℝ → Prop
  | some b, a => b < a
  | none, _ => False

/-- Big-step relation of the hill-descent `while True` loop: `DescendsTo f s
t p` holds when the loop with objective `f` and step `s`, started at `t`,
terminates (hits `break`) with final value `p`.  The constructors are the
four branches of the loop body, in source order: NaN escape upward, step up,
step down, `break`. -/
inductive DescendsTo (f : ℝ → Option ℝ) (s : ℝ) : ℝ → ℝ → Prop
  | nanStep {t p} : f t = none → DescendsTo f s (t + s) p → DescendsTo f s t p
  | upStep {t a p} : f t = some a → nanLt (f (t + s)) a →
      DescendsTo f s (t + s) p → DescendsTo f s t p
  | downStep {t a p} : f t = some a → ¬ nanLt (f (t + s)) a →
      nanLt (f (t - s)) a → DescendsTo f s (t - s) p → DescendsTo f s t p
  | done {t a} : f t = some a → ¬ nanLt (f (t + s)) a →
      ¬ nanLt (f (t - s)) a → DescendsTo f s t t

/-- When the loop breaks at `p`, the objective is defined (non-NaN) at `p`
and no smaller defined value exists one step away on either side. -/
lemma DescendsTo.grid_local_min {f : ℝ → Option ℝ} {s t p : ℝ}
    (h : DescendsTo f s t p) :
    ∃ a, f p = some a ∧ (∀ b, f (p + s) = some b → a ≤ b) ∧
      (∀ b, f (p - s) = some b → a ≤ b) := by
  induction h with
  | nanStep _ _ ih => exact ih
  | upStep _ _ _ ih => exact ih
  | downStep _ _ _ _ ih => exact ih
  | done hft hup hdown =>
    rename_i t a
    refine ⟨a, hft, fun b hb => ?_, fun b hb => ?_⟩
    · by_contra hab
      exact hup (by simp [nanLt, hb]; linarith)
    · by_contra hab
      exact hdown (by simp [nanLt, hb]; linarith)

/-- C2.  Hill-descent postcondition: for every dataset (validated or not)
on which the primary descent loop, started at `starting_thickness` with step
`step = 0.0001`, terminates at `final_thickness = p`, the chi-squared at `p`
is defined and is at most the chi-squared one step up and one step down
whenever those neighbor values are defined (an undefined neighbor is a NaN,
which the loop's float comparisons treat as not smaller): `p` is a local
minimum of chi-squared on the step grid. -/
theorem final_thickness_grid_local_min (data : List (ℝ × ℝ × ℝ)) (p : ℝ)
    (h : DescendsTo (chi_squared data) step starting_thickness p) :
    step = 0.0001 ∧
      ∃ a, chi_squared data p = some a ∧
        (∀ b, chi_squared data (p + step) = some b → a ≤ b) ∧
        (∀ b, chi_squared data (p - step) = some b → a ≤ b) :=
  ⟨rfl, h.grid_local_min⟩

/-- Concrete instance of C2: on the empty dataset chi-squared is constantly
`0`, the loop breaks immediately at `starting_thickness = 3`, and `0 ≤ 0`
one step either way. -/
theorem final_thickness_grid_local_min_witness :
    ∃ a, chi_squared [] (3 : ℝ) = some a ∧
      (∀ b, chi_squared [] ((3 : ℝ) + step) = some b → a ≤ b) ∧
      (∀ b, chi_squared [] ((3 : ℝ) - step) = some b → a ≤ b) := by
  have hrun : DescendsTo (chi_squared []) step starting_thickness 3 := by
    have hc : ∀ x : ℝ, chi_squared [] x = some 0 := fun _ => rfl
    exact DescendsTo.done (hc 3) (by simp [hc, nanLt]) (by simp [hc, nanLt])
  exact (final_thickness_grid_local_min [] 3 hrun).2

/-- `function_to_be_minimised(data, thickness) =
(chi_squared(data, thickness) - chi_squared(data, final_thickness) - 1)^2`,
with the script's global `final_thickness` made an explicit argument;
NaN (`none`) in either chi-squared propagates. -/
noncomputable def function_to_be_minimised (data : List (ℝ × ℝ × ℝ))
    (final_thickness thickness : ℝ) : Option ℝ :=
  match chi_squared data thickness, chi_squared data final_thickness with
  | some a, some b => some ((a - b - 1) ^ 2)
  | _, _ => none

/-- `error_in_thickness(data, thickness, step)` runs the same hill-descent
loop on `function_to_be_minimised` and returns `|terminal - final_thickness|`.
The call site passes `thickness = final_thickness` (the loop starts at the
fitted value) and `step = error_step`.  `ErrorInThickness data final e`
holds when that call terminates and returns `e`. -/
def ErrorInThickness (data : List (ℝ × ℝ × ℝ)) (final_thickness e : ℝ) : Prop :=
  ∃ p, DescendsTo (function_to_be_minimised data final_thickness) error_step
      final_thickness p ∧ e = |p - final_thickness|

/-- C3 (amended).  The uncertainty estimator descends the objective
`(chi_squared(p) - chi_squared(final_thickness) - 1)^2`; it is the same
NaN-escape/neighbor-comparison state machine (`DescendsTo`) as the primary
fit, started at `final_thickness`, with step `error_step = step / 10 =
0.00001`; whenever it terminates at some `p_boundary`, the reported error is
`|p_boundary - final_thickness|`, hence non-negative, and `p_boundary` is a
grid-local minimum of that objective — but `chi_squared(p_boundary)` need
not be close to `chi_squared(final_thickness) + 1` (see the
counterexample). -/
theorem error_in_thickness_spec (data : List (ℝ × ℝ × ℝ))
    (final_thickness e : ℝ) (h : ErrorInThickness data final_thickness e) :
    error_step = step / 10 ∧ error_step = 0.00001 ∧
      (∀ t a b, chi_squared data t = some a →
        chi_squared data final_thickness = some b →
        function_to_be_minimised data final_thickness t = some ((a - b - 1) ^ 2)) ∧
      0 ≤ e ∧
      ∃ p, DescendsTo (function_to_be_minimised data final_thickness)
          error_step final_thickness p ∧
        e = |p - final_thickness| ∧
        ∃ v, function_to_be_minimised data final_thickness p = some v ∧
          (∀ w, function_to_be_minimised data final_thickness (p + error_step) =
            some w → v ≤ w) ∧
          (∀ w, function_to_be_minimised data final_thickness (p - error_step) =
            some w → v ≤ w) := by
  obtain ⟨p, hrun, he⟩ := h
  refine ⟨by unfold error_step step; norm_num, by unfold error_step step; norm_num,
    ?_, by rw [he]; exact abs_nonneg _, p, hrun, he, hrun.grid_local_min⟩
  intro t a b ha hb
  unfold function_to_be_minimised
  rw [ha, hb]

/-- Concrete instance of C3 (amended): empty dataset, `final_thickness = 3`,
the uncertainty descent terminates immediately and reports error `0`. -/
theorem error_in_thickness_spec_witness :
    0 ≤ (0 : ℝ) ∧
      ∃ p, DescendsTo (function_to_be_minimised [] 3) error_step 3 p ∧
        (0 : ℝ) = |p - 3| := by
  have hf : ∀ x : ℝ, function_to_be_minimised [] 3 x = some 1 := by
    intro x
    unfold function_to_be_minimised
    have hc : ∀ y : ℝ, chi_squared [] y = some 0 := fun _ => rfl
    rw [hc, hc]
    norm_num
  have hrun : ErrorInThickness [] 3 0 :=
    ⟨3, DescendsTo.done (hf 3) (by simp [hf, nanLt]) (by simp [hf, nanLt]),
      by simp⟩
  obtain ⟨_, _, _, h0, hp⟩ := error_in_thickness_spec [] 3 0 hrun
  exact ⟨h0, by obtain ⟨p, h1, h2, _⟩ := hp; exact ⟨p, h1, h2⟩⟩

/-- Counterexample to C3 as stated: on the empty dataset chi-squared is
constantly `0`, the primary descent terminates at `final_thickness = 3`, the
uncertainty descent terminates at `p_boundary = 3`, yet
`chi_squared(p_boundary) = 0` sits at distance exactly `1` from
`chi_squared(final_thickness) + 1 = 1`: the boundary chi-squared is not
approximately the minimum plus one (it misses by the full unit, for any
tolerance below `1`). -/
theorem error_boundary_counterexample :
    DescendsTo (chi_squared []) step starting_thickness 3 ∧
      ErrorInThickness [] 3 0 ∧
      (∀ a b, chi_squared [] (3 : ℝ) = some a →
        chi_squared [] (3 : ℝ) = some b → |a - (b + 1)| = 1) ∧
      ¬ (∀ a b, chi_squared [] (3 : ℝ) = some a →
        chi_squared [] (3 : ℝ) = some b → |a - (b + 1)| < 1 / 2) := by
  have hc : ∀ y : ℝ, chi_squared [] y = some 0 := fun _ => rfl
  have hf : ∀ x : ℝ, function_to_be_minimised [] 3 x = some 1 := by
    intro x
    unfold function_to_be_minimised
    rw [hc, hc]
    norm_num
  refine ⟨DescendsTo.done (hc _) (by simp [hc, nanLt]) (by simp [hc, nanLt]),
    ⟨3, DescendsTo.done (hf 3) (by simp [hf, nanLt]) (by simp [hf, nanLt]),
      by simp⟩, ?_, ?_⟩
  · intro a b ha hb
    rw [hc] at ha hb
    obtain rfl : a = 0 := by simpa using ha.symm
    obtain rfl : b = 0 := by simpa using hb.symm
    norm_num
  · intro hcontra
    have := hcontra 0 0 (hc 3) (hc 3)
    norm_num at this

open Classical in
/-- Python's built-in `round` on a float: round to the nearest integer,
ties to the even integer (banker's rounding). -/
noncomputable def pyRound (x : ℝ) : ℤ :=
  if x - ⌊x⌋ < 1 / 2 then ⌊x⌋
  else if 1 / 2 < x - ⌊x⌋ then ⌊x⌋ + 1
  else if Even ⌊x⌋ then ⌊x⌋ else ⌊x⌋ + 1

/-- `number_of_layers(thickness, thickness_per_layer) =
round(thickness / thickness_per_layer)`. -/
noncomputable def number_of_layers (thickness tpl : ℝ) : ℤ :=
  pyRound (thickness / tpl)

/-- Away from a tie, `pyRound` is the nearest integer. -/
lemma pyRound_eq_of_abs_lt {x : ℝ} {k : ℤ} (h : |x - k| < 1 / 2) :
    pyRound x = k := by
  rw [abs_lt] at h
  unfold pyRound
  rcases le_or_lt (k : ℝ) x with hx | hx
  · have hfl : ⌊x⌋ = k := by
      rw [Int.floor_eq_iff]
      constructor
      · exact_mod_cast hx
      · linarith [h.2]
    rw [hfl, if_pos (by linarith [h.2])]
  · have hfl : ⌊x⌋ = k - 1 := by
      rw [Int.floor_eq_iff]
      push_cast
      constructor
      · linarith [h.1]
      · linarith
    rw [hfl, if_neg (by push_cast [hfl]; linarith [h.1]),
      if_pos (by push_cast [hfl]; linarith [h.1])]
    omega

/-- Counterexample to C7 as stated (with the inclusive bound `≤ 1.5`): for
`k = 1` and `t = 1.5` we have `|1.5 - 3 * 1| = 1.5 ≤ 1.5`, yet
`number_of_layers 1.5 3 = round(0.5) = 0 ≠ 1` — Python's banker's rounding
sends the half-integer `0.5` to the even integer `0`.  (Under `≤ 1.5` the
windows of adjacent multiples overlap at half-integers, so no tie-breaking
rule could satisfy the claim.) -/
theorem layer_count_boundary_counterexample :
    (1 : ℤ) ≥ 1 ∧ |(1.5 : ℝ) - 3 * (1 : ℤ)| ≤ 1.5 ∧
      number_of_layers 1.5 3 = 0 ∧
      ¬ (∀ k : ℤ, 1 ≤ k → ∀ t : ℝ, |t - 3 * k| ≤ 1.5 →
          number_of_layers t 3 = k) := by
  have hval : number_of_layers 1.5 3 = 0 := by
    unfold number_of_layers pyRound
    have hx : (1.5 : ℝ) / 3 = 1 / 2 := by norm_num
    have hfl : ⌊(1.5 : ℝ) / 3⌋ = 0 := by
      rw [hx, Int.floor_eq_iff]
      norm_num
    rw [hfl, if_neg (by rw [hx]; push_cast; norm_num),
      if_neg (by rw [hx]; push_cast; norm_num), if_pos (by simp)]
  refine ⟨le_refl 1, by push_cast; rw [abs_le]; norm_num, hval, fun hcl => ?_⟩
  have := hcl 1 le_rfl 1.5 (by push_cast; rw [abs_le]; norm_num)
  rw [hval] at this
  exact absurd this (by norm_num)

/-- C7 (amended).  Layer-count round-trip with the strict bound: for every
integer `k ≥ 1` and every thickness `t` with `|t - 3k| < 1.5`,
`number_of_layers t 3 = round(t / 3)` returns exactly `k`; the reported
layer count is stable under perturbations strictly within half a layer
(1.5 Angstroms) of a multiple of the 3-Angstrom layer thickness. -/
theorem layer_count_stable (k : ℤ) (_hk : 1 ≤ k) (t : ℝ)
    (h : |t - 3 * k| < 1.5) : number_of_layers t 3 = k := by
  unfold number_of_layers
  apply pyRound_eq_of_abs_lt
  rw [abs_lt] at h ⊢
  constructor <;> [linarith [h.1]; linarith [h.2]]

/-- Concrete instance of C7 (amended): `k = 2`, `t = 6.7`,
`|6.7 - 6| = 0.7 < 1.5` and the reported layer count is `2`. -/
theorem layer_count_stable_witness :
    (1 : ℤ) ≤ 2 ∧ |(6.7 : ℝ) - 3 * (2 : ℤ)| < 1.5 ∧
      number_of_layers 6.7 3 = 2 :=
  ⟨by norm_num, by push_cast; rw [abs_lt]; norm_num,
    layer_count_stable 2 (by norm_num) 6.7 (by push_cast; rw [abs_lt]; norm_num)⟩

/-- `number_of_degrees_of_freedom = len(data) - number_of_parameters`,
computed with no guard. -/
noncomputable def number_of_degrees_of_freedom (data : List (ℝ × ℝ × ℝ))
    (number_of_parameters : ℝ) : ℝ :=
  (data.length : ℝ) - number_of_parameters

/-- `reduced_chi_squared(data, thickness, number_of_parameters) =
chi_squared / number_of_degrees_of_freedom` (thickness script, called with
`number_of_parameters = 1`); NaN chi-squared propagates. -/
noncomputable def reduced_chi_squared (data : List (ℝ × ℝ × ℝ))
    (thickness number_of_parameters : ℝ) : Option ℝ :=
  (chi_squared data thickness).map
    (fun c => c / number_of_degrees_of_freedom data number_of_parameters)

end Thickness

namespace Decay

/-- `scipy.constants.Avogadro`. -/
noncomputable def Avogadro : ℝ := 6.02214076e23

/-- `initial_number_sr_nuclei = 10^-6 * Avogadro / 10^12` (units of `10^12`
nuclei). -/
noncomputable def initial_number_sr_nuclei : ℝ := 1e-6 * Avogadro / 1e12

/-- `activity(time, decay_constants)`: the two-exponential activity formula
with free parameters `(decay_constant_rb, decay_constant_sr)`, in TBq.
Division here is the script's float division. -/
noncomputable def activity (time : ℝ) (decay_constants : ℝ × ℝ) : ℝ :=
  initial_number_sr_nuclei * decay_constants.1 * decay_constants.2 /
      (decay_constants.1 - decay_constants.2) *
    (Real.exp (-decay_constants.2 * time) - Real.exp (-decay_constants.1 * time))

/-- `chi_squared(decay_constants, data) =
sum(((data[:,1] - activity(data[:,0], .)) / data[:,2])^2)` over rows
`(time, activity, uncertainty)`. -/
noncomputable def chi_squared (decay_constants : ℝ × ℝ)
    (data : List (ℝ × ℝ × ℝ)) : ℝ :=
  (data.map (fun r => ((r.2.1 - activity r.1 decay_constants) / r.2.2) ^ 2)).sum

/-- `reduced_chi_squared(decay_constants, data, number_of_parameters) =
chi_squared / (len(data) - number_of_parameters)` (decay script, called
with `number_of_parameters = 2`), again with no guard on the divisor. -/
noncomputable def reduced_chi_squared (decay_constants : ℝ × ℝ)
    (data : List (ℝ × ℝ × ℝ)) (number_of_parameters : ℝ) : ℝ :=
  chi_squared decay_constants data / ((data.length : ℝ) - number_of_parameters)

open Classical in
/-- `remove_outliers(decay_constants, data)`: keep exactly the rows whose
absolute offset from the fitted activity is strictly below `5 *` their
uncertainty (`data[np.where(offset < 5 * data[:,2])]`). -/
noncomputable def remove_outliers (decay_constants : ℝ × ℝ) :
    List (ℝ × ℝ × ℝ) → List (ℝ × ℝ × ℝ)
  | [] => []
  | r :: rest =>
    if |r.2.1 - activity r.1 decay_constants| < 5 * r.2.2 then
      r :: remove_outliers decay_constants rest
    else remove_outliers decay_constants rest

/-- The row transform performed by the hours-to-seconds conversion: first
column times `3600`, other columns unchanged. -/
noncomputable def scaleRow (r : ℝ × ℝ × ℝ) : ℝ × ℝ × ℝ := (r.1 * 3600, r.2.1, r.2.2)

/-- The ascending-first-column comparison realised by
`np.argsort(data_combined[:,0])`. -/
def byTime (a b : ℝ × ℝ × ℝ) : Prop := a.1 ≤ b.1

/-- `convert_time_to_seconds(data)`: `data_in_seconds = data` aliases the
argument, the slice assignment `data_in_seconds[:,0] = data[:,0] * 3600`
mutates the shared buffer, and the aliased array is returned.  Modelled in
state-passing style: the first component is the caller's array after the
call, the second the returned value — one and the same list. -/
noncomputable def convert_time_to_seconds (data : List (ℝ × ℝ × ℝ)) :
    List (ℝ × ℝ × ℝ) × List (ℝ × ℝ × ℝ) :=
  (data.map scaleRow, data.map scaleRow)

open Classical in
/-- Sorting in ascending order of the first column
(`data_combined[np.argsort(data_combined[:,0])]`), modelled with a
comparison sort on the time keys. -/
noncomputable def sortByTime (l : List (ℝ × ℝ × ℝ)) : List (ℝ × ℝ × ℝ) :=
  l.insertionSort byTime

/-- `combine_files` after the two `read_and_validate` calls (file parsing
and row validation being external I/O): concatenate the two validated
datasets, sort by time, then convert the time column to seconds. -/
noncomputable def combine_files (data_1 data_2 : List (ℝ × ℝ × ℝ)) :
    List (ℝ × ℝ × ℝ) :=
  (convert_time_to_seconds (sortByTime (data_1 ++ data_2))).2

/-- `half_lives(decay_constants) = log(2) / decay_constants / 60`,
componentwise: half-lives in minutes from decay constants in `s^-1`. -/
noncomputable def half_lives (decay_constants : ℝ × ℝ) : ℝ × ℝ :=
  (Real.log 2 / decay_constants.1 / 60, Real.log 2 / decay_constants.2 / 60)

/-- `error_half_lives = half_lives * error_decay_constants /
decay_constants`, componentwise. -/
noncomputable def error_half_lives (decay_constants error_decay_constants : ℝ × ℝ) :
    ℝ × ℝ :=
  ((half_lives decay_constants).1 * error_decay_constants.1 / decay_constants.1,
   (half_lives decay_constants).2 * error_decay_constants.2 / decay_constants.2)

/-- A row survives the outlier filter iff it is in the data and its absolute
residual is strictly below `5` times its uncertainty. -/
lemma mem_remove_outliers_iff (decay_constants : ℝ × ℝ)
    (data : List (ℝ × ℝ × ℝ)) (r : ℝ × ℝ × ℝ) :
    r ∈ remove_outliers decay_constants data ↔
      r ∈ data ∧ |r.2.1 - activity r.1 decay_constants| < 5 * r.2.2 := by
  induction data with
  | nil => simp [remove_outliers]
  | cons a rest ih =>
    by_cases ha : |a.2.1 - activity a.1 decay_constants| < 5 * a.2.2
    · simp only [remove_outliers, if_pos ha, List.mem_cons, ih]
      constructor
      · rintro (rfl | ⟨hr, hlt⟩)
        · exact ⟨Or.inl rfl, ha⟩
        · exact ⟨Or.inr hr, hlt⟩
      · rintro ⟨rfl | hr, hlt⟩
        · exact Or.inl rfl
        · exact Or.inr ⟨hr, hlt⟩
    · simp only [remove_outliers, if_neg ha, List.mem_cons, ih]
      constructor
      · rintro ⟨hr, hlt⟩
        exact ⟨Or.inr hr, hlt⟩
      · rintro ⟨rfl | hr, hlt⟩
        · exact absurd hlt ha
        · exact ⟨hr, hlt⟩

/-- The outlier filter returns a subsequence of its input. -/
lemma remove_outliers_sublist (decay_constants : ℝ × ℝ)
    (data : List (ℝ × ℝ × ℝ)) :
    (remove_outliers decay_constants data).Sublist data := by
  induction data with
  | nil => simp [remove_outliers]
  | cons a rest ih =>
    by_cases ha : |a.2.1 - activity a.1 decay_constants| < 5 * a.2.2
    · simpa [remove_outliers, if_pos ha] using ih.cons₂ a
    · simpa [remove_outliers, if_neg ha] using ih.cons a

/-- C4.  Outlier filter: for every parameter pair and dataset, one
application of `remove_outliers` returns a subsequence of the input (so the
dataset never grows), keeps every sample whose absolute residual from the
fitted activity is strictly less than `5` times its uncertainty, and
discards exactly the samples whose absolute residual is at least `5` times
their uncertainty. -/
theorem remove_outliers_spec (decay_constants : ℝ × ℝ)
    (data : List (ℝ × ℝ × ℝ)) :
    (remove_outliers decay_constants data).Sublist data ∧
      (remove_outliers decay_constants data).length ≤ data.length ∧
      (∀ r ∈ data, |r.2.1 - activity r.1 decay_constants| < 5 * r.2.2 →
        r ∈ remove_outliers decay_constants data) ∧
      (∀ r ∈ remove_outliers decay_constants data,
        r ∈ data ∧ |r.2.1 - activity r.1 decay_constants| < 5 * r.2.2) := by
  refine ⟨remove_outliers_sublist decay_constants data,
    (remove_outliers_sublist decay_constants data).length_le, ?_, ?_⟩
  · intro r hr hlt
    exact (mem_remove_outliers_iff decay_constants data r).2 ⟨hr, hlt⟩
  · intro r hr
    exact (mem_remove_outliers_iff decay_constants data r).1 hr

/-- Concrete instance of C4: a time-0 sample with zero measured activity has
residual `0 < 5`, so it is kept. -/
theorem remove_outliers_spec_witness :
    ((0 : ℝ), (0 : ℝ), (1 : ℝ)) ∈
      remove_outliers (0.0005, 0.005) [((0 : ℝ), (0 : ℝ), (1 : ℝ))] := by
  refine (remove_outliers_spec (0.0005, 0.005) [(0, 0, 1)]).2.2.1 (0, 0, 1)
    (List.mem_singleton_self _) ?_
  simp [activity]

/-- C6.  Half-life conversion and error propagation: for positive decay
constants, `half_lives` is componentwise `log(2) / lambda / 60` (seconds to
minutes), and the propagated error satisfies
`error_half_life / half_life = error_decay_constant / decay_constant`
exactly, for each of the two parameters. -/
theorem half_life_error_propagation (decay_constants errors : ℝ × ℝ)
    (h1 : 0 < decay_constants.1) (h2 : 0 < decay_constants.2) :
    half_lives decay_constants =
        (Real.log 2 / decay_constants.1 / 60, Real.log 2 / decay_constants.2 / 60) ∧
      (error_half_lives decay_constants errors).1 / (half_lives decay_constants).1 =
        errors.1 / decay_constants.1 ∧
      (error_half_lives decay_constants errors).2 / (half_lives decay_constants).2 =
        errors.2 / decay_constants.2 := by
  have hL : Real.log 2 ≠ 0 := ne_of_gt (Real.log_pos (by norm_num))
  refine ⟨rfl, ?_, ?_⟩ <;>
    · unfold error_half_lives half_lives
      field_simp
      ring

/-- Concrete instance of C6 at decay constants `(1, 2)`, errors `(3, 4)`. -/
theorem half_life_error_propagation_witness :
    (error_half_lives (1, 2) (3, 4)).1 / (half_lives (1, 2)).1 = 3 / 1 ∧
      (error_half_lives (1, 2) (3, 4)).2 / (half_lives (1, 2)).2 = 4 / 2 :=
  ⟨(half_life_error_propagation (1, 2) (3, 4) (by norm_num) (by norm_num)).2.1,
   (half_life_error_propagation (1, 2) (3, 4) (by norm_num) (by norm_num)).2.2⟩

/-- C10.  `convert_time_to_seconds` is not a pure observer of its argument:
the caller's array after the call (first component) and the returned array
(second component) are the same list, whose first column is the original
scaled by `3600` with the other two columns unchanged; feeding the mutated
array back in scales the time column by `3600` twice. -/
theorem convert_time_state_spec (data : List (ℝ × ℝ × ℝ)) :
    (convert_time_to_seconds data).1 = (convert_time_to_seconds data).2 ∧
      (convert_time_to_seconds data).2 =
        data.map (fun r => (r.1 * 3600, r.2.1, r.2.2)) ∧
      (convert_time_to_seconds ((convert_time_to_seconds data).1)).2 =
        data.map (fun r => (r.1 * 3600 * 3600, r.2.1, r.2.2)) := by
  refine ⟨rfl, rfl, ?_⟩
  unfold convert_time_to_seconds
  rw [List.map_map]
  rfl

instance : IsTotal (ℝ × ℝ × ℝ) byTime := ⟨fun a b => le_total a.1 b.1⟩

instance : IsTrans (ℝ × ℝ × ℝ) byTime := ⟨fun _ _ _ => le_trans⟩

noncomputable instance : DecidableRel byTime :=
  fun a b => inferInstanceAs (Decidable (a.1 ≤ b.1))

/-- Scaling both time keys by the positive factor `3600` preserves the
comparison. -/
lemma byTime_scaleRow_iff (a b : ℝ × ℝ × ℝ) :
    byTime (scaleRow a) (scaleRow b) ↔ byTime a b := by
  unfold byTime scaleRow
  simp only
  constructor <;> intro h <;> linarith

/-- Ordered insertion by time commutes with the scaling map. -/
lemma orderedInsert_scaleRow (a : ℝ × ℝ × ℝ) (l : List (ℝ × ℝ × ℝ)) :
    (l.map scaleRow).orderedInsert byTime (scaleRow a) =
      (l.orderedInsert byTime a).map scaleRow := by
  induction l with
  | nil => rfl
  | cons b t ih =>
    by_cases hab : byTime a b
    · simp only [List.map_cons, List.orderedInsert,
        if_pos ((byTime_scaleRow_iff a b).2 hab), if_pos hab]
    · simp only [List.map_cons, List.orderedInsert,
        if_neg (fun hc => hab ((byTime_scaleRow_iff a b).1 hc)), if_neg hab, ih]

/-- Insertion sort by time commutes with the scaling map. -/
lemma insertionSort_scaleRow (l : List (ℝ × ℝ × ℝ)) :
    (l.map scaleRow).insertionSort byTime =
      (l.insertionSort byTime).map scaleRow := by
  induction l with
  | nil => rfl
  | cons a t ih => rw [List.map_cons, List.insertionSort, ih,
      orderedInsert_scaleRow, List.insertionSort]

/-- C5.  Decay-script file merge: on any two validated datasets whose time
columns are non-negative, `combine_files` returns the concatenation of the
two datasets sorted in ascending order of the first column with that column
converted from hours to seconds (`* 3600`); in particular sorting the
concatenation after the conversion yields exactly the array the code
produces by sorting first and converting second, and the result is a sorted
permutation of the converted concatenation. -/
theorem combine_files_sort_convert_commute (data_1 data_2 : List (ℝ × ℝ × ℝ))
    (_hpos : ∀ r ∈ data_1 ++ data_2, 0 ≤ r.1) :
    combine_files data_1 data_2 =
        ((data_1 ++ data_2).map scaleRow).insertionSort byTime ∧
      List.Sorted byTime (combine_files data_1 data_2) ∧
      (combine_files data_1 data_2).Perm ((data_1 ++ data_2).map scaleRow) := by
  classical
  have hmain : combine_files data_1 data_2 =
      ((data_1 ++ data_2).map scaleRow).insertionSort byTime := by
    unfold combine_files convert_time_to_seconds sortByTime
    rw [insertionSort_scaleRow]
  refine ⟨hmain, ?_, ?_⟩
  · rw [hmain]
    exact List.sorted_insertionSort byTime _
  · rw [hmain]
    exact List.perm_insertionSort byTime _

/-- Concrete instance of C5 on a pair of one-row datasets with non-negative
times. -/
theorem combine_files_sort_convert_commute_witness :
    combine_files [((1 : ℝ), (7 : ℝ), (1 : ℝ))] [((0 : ℝ), (5 : ℝ), (2 : ℝ))] =
        (([((1 : ℝ), (7 : ℝ), (1 : ℝ))] ++
          [((0 : ℝ), (5 : ℝ), (2 : ℝ))]).map scaleRow).insertionSort byTime ∧
      List.Sorted byTime
        (combine_files [((1 : ℝ), (7 : ℝ), (1 : ℝ))] [((0 : ℝ), (5 : ℝ), (2 : ℝ))]) :=
  ⟨(combine_files_sort_convert_commute _ _ (by
      intro r hr
      simp only [List.cons_append, List.nil_append, List.mem_cons,
        List.not_mem_nil, or_false] at hr
      rcases hr with rfl | rfl <;> norm_num)).1,
   (combine_files_sort_convert_commute [((1 : ℝ), (7 : ℝ), (1 : ℝ))]
      [((0 : ℝ), (5 : ℝ), (2 : ℝ))] (by
      intro r hr
      simp only [List.cons_append, List.nil_append, List.mem_cons,
        List.not_mem_nil, or_false] at hr
      rcases hr with rfl | rfl <;> norm_num)).2.1⟩

end Decay

namespace Thickness

/-- `lambda_constant` is positive. -/
lemma lambda_constant_pos : 0 < lambda_constant := by
  unfold lambda_constant epsilon_r epsilon_0
  have hpi := Real.pi_pos
  have hlog := Real.log_pos (by norm_num : (1 : ℝ) < 2)
  positivity

/-- `distance_1` is positive. -/
lemma distance_1_pos : 0 < distance_1 := by
  unfold distance_1 V_0
  have := lambda_constant_pos
  positivity

/-- At the (unphysical) thickness `-1` and energy `0` the transmission
coefficient is a defined float strictly greater than `1`: the log term is
positive and the `distance_2 - distance_1` factor negative, so the average
potential exceeds `V_0 = 3` and the exponent is positive. -/
lemma transmission_coefficient_at_neg_one :
    ∃ t, transmission_coefficient 0 (-1) = some t ∧ 1 < t := by
  have hd1 := distance_1_pos
  have hd2 : distance_2 (-1) = -1 - distance_1 := rfl
  have hcond : ¬ (distance_2 (-1) = distance_1 ∨ distance_2 (-1) = 0) := by
    rw [hd2]
    push_neg
    constructor <;> intro h <;> linarith
  have havg : average_potential (-1) =
      some (V_0 - 1.15 * lambda_constant / (distance_2 (-1) - distance_1) *
        Real.log ((distance_2 (-1)) ^ 2 / distance_1 ^ 2)) := by
    unfold average_potential
    rw [if_neg hcond]
  set v := V_0 - 1.15 * lambda_constant / (distance_2 (-1) - distance_1) *
    Real.log ((distance_2 (-1)) ^ 2 / distance_1 ^ 2) with hv
  have hlogpos : 0 < Real.log ((distance_2 (-1)) ^ 2 / distance_1 ^ 2) := by
    apply Real.log_pos
    rw [hd2, one_lt_div (by positivity)]
    nlinarith
  have hfac : 1.15 * lambda_constant / (distance_2 (-1) - distance_1) < 0 := by
    apply div_neg_of_pos_of_neg
    · have := lambda_constant_pos
      linarith
    · rw [hd2]
      linarith
  have hvpos : 0 < v := by
    rw [hv]
    unfold V_0
    nlinarith
  have hT : transmission_coefficient 0 (-1) =
      some (Real.exp (-2 * (distance_2 (-1) - distance_1) *
        sqrt_2m_over_hbar * Real.sqrt (v - 0))) := by
    unfold transmission_coefficient
    rw [havg]
    show (if v - 0 < 0 then none else some (Real.exp (-2 *
      (distance_2 (-1) - distance_1) * sqrt_2m_over_hbar *
        Real.sqrt (v - 0)))) = _
    rw [if_neg (by rw [sub_zero]; push_neg; linarith)]
  refine ⟨_, hT, ?_⟩
  rw [Real.one_lt_exp_iff]
  have hsqrt : 0 < Real.sqrt (v - 0) := Real.sqrt_pos.2 (by linarith)
  have hneg : distance_2 (-1) - distance_1 < 0 := by
    rw [hd2]
    linarith
  have hk : (0 : ℝ) < sqrt_2m_over_hbar := by
    unfold sqrt_2m_over_hbar
    norm_num
  have h1 : (0 : ℝ) < -2 * (distance_2 (-1) - distance_1) := by linarith
  exact mul_pos (mul_pos h1 hk) hsqrt

/-- A one-row dataset and thickness at which the thickness chi-squared is
defined and strictly positive. -/
lemma chi_squared_pos_example :
    ∃ c, chi_squared [(1, 0, 1)] (-1) = some c ∧ 0 < c := by
  obtain ⟨t, ht, ht1⟩ := transmission_coefficient_at_neg_one
  refine ⟨((1 - t) / 1) ^ 2 + 0, ?_, ?_⟩
  · unfold chi_squared
    simp only [List.foldr_cons, List.foldr_nil, ht]
  · have hne : (1 - t) / 1 ≠ 0 := by
      rw [div_one]
      intro h
      have : t = 1 := by linarith [sub_eq_zero.1 h]
      linarith
    have := sq_pos_of_ne_zero hne
    linarith

end Thickness

/-- C9 (amended).  Both scripts' `reduced_chi_squared` divide by
`len(data) - number_of_parameters` with no guard: the divisor is `0` when
the dataset size equals the parameter count (the computation divides by
zero) and negative when the dataset is smaller; in the latter case the
reported reduced chi-squared is nonpositive, and strictly negative whenever
the chi-squared value is strictly positive (with a zero chi-squared the
quotient is `0`, not negative — see the counterexample); when the dataset
is strictly larger than the parameter count the reported value is a
well-defined non-negative real. -/
theorem reduced_chi_squared_guard :
    (∀ (data : List (ℝ × ℝ × ℝ)) (p : ℝ), (data.length : ℝ) = p →
      Thickness.number_of_degrees_of_freedom data p = 0) ∧
    (∀ (data : List (ℝ × ℝ × ℝ)) (p : ℝ), (data.length : ℝ) < p →
      Thickness.number_of_degrees_of_freedom data p < 0) ∧
    (∀ (data : List (ℝ × ℝ × ℝ)) (t p c : ℝ), (data.length : ℝ) < p →
      Thickness.chi_squared data t = some c → 0 < c →
      ∃ r, Thickness.reduced_chi_squared data t p = some r ∧ r < 0) ∧
    (∀ (data : List (ℝ × ℝ × ℝ)) (t p c : ℝ), p < (data.length : ℝ) →
      Thickness.chi_squared data t = some c → 0 ≤ c →
      ∃ r, Thickness.reduced_chi_squared data t p = some r ∧ 0 ≤ r) ∧
    (∀ (lam : ℝ × ℝ) (data : List (ℝ × ℝ × ℝ)) (p : ℝ), (data.length : ℝ) = p →
      Decay.reduced_chi_squared lam data p = Decay.chi_squared lam data / 0) ∧
    (∀ (lam : ℝ × ℝ) (data : List (ℝ × ℝ × ℝ)) (p : ℝ), (data.length : ℝ) < p →
      0 < Decay.chi_squared lam data → Decay.reduced_chi_squared lam data p < 0) ∧
    (∀ (lam : ℝ × ℝ) (data : List (ℝ × ℝ × ℝ)) (p : ℝ), p < (data.length : ℝ) →
      0 ≤ Decay.chi_squared lam data → 0 ≤ Decay.reduced_chi_squared lam data p) := by
  refine ⟨?_, ?_, ?_, ?_, ?_, ?_, ?_⟩
  · intro data p hp
    unfold Thickness.number_of_degrees_of_freedom
    linarith
  · intro data p hp
    unfold Thickness.number_of_degrees_of_freedom
    linarith
  · intro data t p c hp hc hcpos
    refine ⟨c / Thickness.number_of_degrees_of_freedom data p, ?_, ?_⟩
    · unfold Thickness.reduced_chi_squared
      rw [hc]
      rfl
    · apply div_neg_of_pos_of_neg hcpos
      unfold Thickness.number_of_degrees_of_freedom
      linarith
  · intro data t p c hp hc hcnn
    refine ⟨c / Thickness.number_of_degrees_of_freedom data p, ?_, ?_⟩
    · unfold Thickness.reduced_chi_squared
      rw [hc]
      rfl
    · apply div_nonneg hcnn
      unfold Thickness.number_of_degrees_of_freedom
      linarith
  · intro lam data p hp
    unfold Decay.reduced_chi_squared
    rw [show (data.length : ℝ) - p = 0 by linarith]
  · intro lam data p hp hc
    unfold Decay.reduced_chi_squared
    apply div_neg_of_pos_of_neg hc
    linarith
  · intro lam data p hp hc
    unfold Decay.reduced_chi_squared
    apply div_nonneg hc
    linarith

/-- Counterexample to C9 as stated: the empty dataset is smaller than the
thickness script's one free parameter and its degrees-of-freedom divisor is
negative, yet the reported reduced chi-squared is `0 / (-1) = 0`, not
negative, because the chi-squared of an empty dataset is `0`. -/
theorem reduced_chi_squared_negative_counterexample :
    (([] : List (ℝ × ℝ × ℝ)).length : ℝ) < 1 ∧
      Thickness.number_of_degrees_of_freedom [] 1 < 0 ∧
      Thickness.reduced_chi_squared [] 3 1 = some 0 ∧
      ¬ ∃ r, Thickness.reduced_chi_squared [] 3 1 = some r ∧ r < 0 := by
  have hval : Thickness.reduced_chi_squared [] 3 1 = some 0 := by
    unfold Thickness.reduced_chi_squared Thickness.chi_squared
    simp
  refine ⟨by norm_num, ?_, hval, ?_⟩
  · unfold Thickness.number_of_degrees_of_freedom
    norm_num
  · rintro ⟨r, hr, hrneg⟩
    rw [hval] at hr
    obtain rfl : r = 0 := by simpa using hr.symm
    exact absurd hrneg (by norm_num)

/-- Concrete instances of C9 (amended): a one-row thickness dataset equals
the parameter count `1` (divisor `0`); the dataset of
`Thickness.chi_squared_pos_example` is smaller than `p = 2` and its reduced
chi-squared is negative; a one-row decay dataset with a positive
chi-squared and the script's `p = 2` gives a negative reduced chi-squared,
while `p = 0` gives a non-negative one. -/
theorem reduced_chi_squared_guard_witness :
    Thickness.number_of_degrees_of_freedom [((1 : ℝ), 0, 1)] 1 = 0 ∧
      (∃ r, Thickness.reduced_chi_squared [((1 : ℝ), 0, 1)] (-1) 2 = some r ∧ r < 0) ∧
      Decay.reduced_chi_squared (0.0005, 0.005) [((0 : ℝ), 1, 1)] 2 < 0 ∧
      0 ≤ Decay.reduced_chi_squared (0.0005, 0.005) [((0 : ℝ), 1, 1)] 0 := by
  have hchi : Decay.chi_squared (0.0005, 0.005) [((0 : ℝ), 1, 1)] = 1 := by
    unfold Decay.chi_squared Decay.activity
    norm_num
  obtain ⟨c, hc, hcpos⟩ := Thickness.chi_squared_pos_example
  refine ⟨reduced_chi_squared_guard.1 _ 1 (by norm_num),
    reduced_chi_squared_guard.2.2.1 _ (-1) 2 c (by norm_num) hc hcpos,
    reduced_chi_squared_guard.2.2.2.2.2.1 _ _ 2 (by norm_num) (by rw [hchi]; norm_num),
    reduced_chi_squared_guard.2.2.2.2.2.2 _ _ 0 (by norm_num) (by rw [hchi]; norm_num)⟩
